import Mathlib

/-!
Verification development for the stream framing layer of aioxmppd
(`src/aioxmppd/network/XMLStreamProcessors.py`).

The incoming side (`XMLStreamHandler`) is a SAX-style content handler; we embed
it as a pure step function over an explicit handler record.  External
collaborators are modelled as inputs:

* the per-element object deserialization engine (the "stanza parser" / driver)
  is modelled by a fault annotation carried on each delegated event - `none`
  means the consumer callback returns normally, `some x` means it raises the
  exception value `x` (exception values are abstracted as naturals);
* the external address and language-tag parsers (`JID.fromstr`,
  `LanguageTag.fromstr`) and the textual integer parser (Python `int`) are
  parameters of the step function, bundled in `Parsers`;
* callbacks (`on_stream_header`, `on_stream_footer`, `on_exception`) are
  modelled by presence flags plus an explicit output trace.

Python mutates attributes in place and an exception raised part way through a
method leaves the earlier mutations visible; the step function therefore
returns the (possibly partially mutated) handler together with the outputs
emitted and an optional raised error, rather than an all-or-nothing `Except`.
-/

namespace Aioxmppd

/-- States of the incoming stream handler, the `HandlerState` enum of the
source.  `CLEAN` is the spec state Idle, `STARTED` is Started,
`STREAM_HEADER_PROCESSED` is InStream, `STREAM_FOOTER_PROCESSED` is Finished
and `EXCEPTION` is Faulted. -/
inductive HandlerState
| CLEAN
| STARTED
| STREAM_HEADER_PROCESSED
| STREAM_FOOTER_PROCESSED
| EXCEPTION
deriving DecidableEq

/-- Namespace-qualified element name: a `(uri, localname)` pair with an
optional namespace part, mirroring the tuples handed to `startElementNS`. -/
abbrev QName := Option String × String

/-- The reserved stream-root name
`("http://etherx.jabber.org/streams", "stream")` checked on the header. -/
def streamRootName : QName := (some "http://etherx.jabber.org/streams", "stream")

/-- Attributes of an element start event, restricted to the four keys the
handler reads: `(None, "from")`, `(None, "to")`, `(None, "version")` and
`("http://www.w3.org/XML/1998/namespace", "lang")`.  The source copies the
SAX attribute mapping into a dict and pops exactly these keys; the remaining
attributes never influence the handler. -/
structure Attrs where
  from_ : Option String
  to_ : Option String
  version : Option String
  lang : Option String
deriving DecidableEq

/-- Attribute set with none of the four recognised keys present. -/
def Attrs.empty : Attrs := ⟨none, none, none, none⟩

/-- External parsing collaborators: `jid` models `aioxmpp.structs.JID.fromstr`,
`lang` models `LanguageTag.fromstr`, `int` models the Python `int`
constructor on strings.  `none` models the parser raising on that input. -/
structure Parsers where
  jid : String → Option String
  lang : String → Option String
  int : String → Option Int

/-- Errors raised by a handler method to its caller.  `protocolViolation`
models `RuntimeError("Invalid state: ...")`, the stream errors model
`errors.StreamError` with the corresponding condition, `jidError` and
`langError` model the exceptions propagating out of the external address and
language-tag parsers, `consumerError` models an uncaught exception of the
consumer raised inside `characters`, `reraised` models `_raise_exception`
re-raising the stored exception when `on_exception` is unset, and
`raisedNone` models `raise None` (only possible with no stored exception). -/
inductive Err
| protocolViolation (s : HandlerState)
| restrictedXml
| invalidNamespace
| undefinedCondition
| unsupportedVersion
| jidError
| langError
| consumerError (x : Nat)
| reraised (x : Nat)
| raisedNone
deriving DecidableEq

/-- Observable outputs of a step: callback invocations and deliveries to the
element consumer (the driver built over the stanza parser). -/
inductive Out
| header
| footer
| exc (x : Nat)
| dStart (n : QName)
| dEnd (n : QName)
| dChars (s : String)
| parserLang (l : Option String)
deriving DecidableEq

/-- Low-level parse events fed to the handler.  The `fault` component models
the behaviour of the external consumer when the event is delegated to it:
`none` for a normal return, `some x` for raising exception value `x`; it is
ignored whenever the handler does not delegate the event. -/
inductive Ev
| startDoc
| endDoc
| startEl (n : QName) (a : Attrs) (fault : Option Nat)
| endEl (n : QName) (fault : Option Nat)
| chars (s : String) (fault : Option Nat)
| procInstr
deriving DecidableEq

/-- State of one `XMLStreamHandler` instance.  `depth` embeds `_depth` (the
source initialises it to `None` and assigns `0` in `startDocument`; every
read in the source happens in states reachable only after `startDocument`,
so we initialise it to `0`).  `stored` embeds `_stored_exception`.
`hasStanzaParser` embeds `_stanza_parser is not None` and `stanzaLang` the
`lang` attribute last pushed onto the stanza parser.  The `hasOn...` flags
embed whether the corresponding nullable callback slot is set. -/
structure XMLStreamHandler where
  state : HandlerState
  depth : Int
  stored : Option Nat
  remote_version : Option (List Int)
  remote_from : Option String
  remote_to : Option String
  remote_lang : Option String
  hasStanzaParser : Bool
  stanzaLang : Option String
  hasOnStreamHeader : Bool
  hasOnStreamFooter : Bool
  hasOnException : Bool
deriving DecidableEq

/-- Freshly constructed handler with the given callback slots registered,
mirroring `XMLStreamHandler.__init__` followed by callback assignment. -/
def XMLStreamHandler.init (hh hf he : Bool) : XMLStreamHandler :=
  { state := .CLEAN
  , depth := 0
  , stored := none
  , remote_version := none
  , remote_from := none
  , remote_to := none
  , remote_lang := none
  , hasStanzaParser := true
  , stanzaLang := none
  , hasOnStreamHeader := hh
  , hasOnStreamFooter := hf
  , hasOnException := he }

/-- Result of one handler method call: the post-mutation handler, the outputs
emitted during the call, and the error raised to the caller, if any. -/
abbrev StepResult := XMLStreamHandler × List Out × Option Err

/-- Embeds `XMLStreamHandler._raise_exception`: the state returns to
`STREAM_HEADER_PROCESSED`, the stored exception is cleared, and the exception
is either dispatched to `on_exception` or re-raised to the caller. -/
def XMLStreamHandler.raiseException (h : XMLStreamHandler) : StepResult :=
  let h1 : XMLStreamHandler := { h with state := .STREAM_HEADER_PROCESSED, stored := none }
  match h.stored with
  | some x => if h.hasOnException then (h1, [Out.exc x], none) else (h1, [], some (Err.reraised x))
  | none => (h1, [], some Err.raisedNone)

/-- Embeds the tail of the header branch of `startElementNS`: push the
language onto the stanza parser when one is configured, fire
`on_stream_header` when registered, move to `STREAM_HEADER_PROCESSED` and
increment the depth. -/
def XMLStreamHandler.processHeaderFinish (h : XMLStreamHandler) : StepResult :=
  let pl : XMLStreamHandler × List Out :=
    if h.hasStanzaParser then ({ h with stanzaLang := h.remote_lang }, [Out.parserLang h.remote_lang])
    else (h, [])
  let outs := if pl.1.hasOnStreamHeader then pl.2 ++ [Out.header] else pl.2
  ({ pl.1 with state := .STREAM_HEADER_PROCESSED, depth := pl.1.depth + 1 }, outs, none)

/-- Embeds the `xml:lang` handling of the header branch: an absent attribute
assigns `None` to `remote_lang`, an unparsable one propagates the language
parser error, a parsable one is stored. -/
def XMLStreamHandler.processHeaderLang (P : Parsers) (h : XMLStreamHandler) (a : Attrs) :
    StepResult :=
  match a.lang with
  | none => XMLStreamHandler.processHeaderFinish { h with remote_lang := none }
  | some s =>
    match P.lang s with
    | none => (h, [], some Err.langError)
    | some l => XMLStreamHandler.processHeaderFinish { h with remote_lang := some l }

/-- Splitting on the dot character over the character list; implements the
semantics of the Python `str.split(".")` (an empty string yields `[""]`, a
trailing separator yields a trailing empty component) by structural
recursion, so that it reduces inside the kernel. -/
def pySplitDotGo : List Char → List (List Char)
| [] => [[]]
| c :: cs =>
  match pySplitDotGo cs with
  | [] => []
  | t :: ts => if c = '.' then [] :: t :: ts else (c :: t) :: ts

/-- Embeds the Python `str.split(".")` used on the `version` attribute. -/
def pySplitDot (s : String) : List String := (pySplitDotGo s.data).map (fun l => ⟨l⟩)

/-- Embeds the version handling of the header branch:
`tuple(map(int, attributes.pop((None, "version"), "0.9").split(".")))`, with
any component failing integer parsing turned into an `UNSUPPORTED_VERSION`
stream error. -/
def XMLStreamHandler.processHeaderVersion (P : Parsers) (h : XMLStreamHandler) (a : Attrs) :
    StepResult :=
  match (pySplitDot (a.version.getD "0.9")).mapM P.int with
  | none => (h, [], some Err.unsupportedVersion)
  | some vs => XMLStreamHandler.processHeaderLang P { h with remote_version := some vs } a

/-- Embeds the `to` handling of the header branch: a missing `to` raises an
`UNDEFINED_CONDITION` stream error, an unparsable one propagates the address
parser error. -/
def XMLStreamHandler.processHeaderTo (P : Parsers) (h : XMLStreamHandler) (a : Attrs) :
    StepResult :=
  match a.to_ with
  | none => (h, [], some Err.undefinedCondition)
  | some s =>
    match P.jid s with
    | none => (h, [], some Err.jidError)
    | some j => XMLStreamHandler.processHeaderVersion P { h with remote_to := some j } a

/-- Embeds the header branch of `startElementNS` (state `STARTED`): root name
check, then `from`, `to`, `version`, `lang` in source order.  Note that the
source assigns `self.remote_from` before checking `to`, so a failure on `to`
leaves an already overwritten `remote_from` behind. -/
def XMLStreamHandler.processHeader (P : Parsers) (h : XMLStreamHandler) (n : QName) (a : Attrs) :
    StepResult :=
  if n ≠ streamRootName then (h, [], some Err.invalidNamespace)
  else
    match a.from_ with
    | some s =>
      match P.jid s with
      | none => (h, [], some Err.jidError)
      | some j => XMLStreamHandler.processHeaderTo P { h with remote_from := some j } a
    | none => XMLStreamHandler.processHeaderTo P { h with remote_from := none } a

/-- Embeds `XMLStreamHandler.startElementNS`.  In `STREAM_HEADER_PROCESSED`
the event is delegated to the driver and a raised consumer exception is
captured (never propagated), with the depth incremented unconditionally; in
`EXCEPTION` only the depth is incremented; in `STARTED` the stream header is
processed; any other state raises the invalid-state `RuntimeError`. -/
def XMLStreamHandler.startElementNS (h : XMLStreamHandler) (P : Parsers) (n : QName)
    (a : Attrs) (fault : Option Nat) : StepResult :=
  match h.state with
  | .STREAM_HEADER_PROCESSED =>
    match fault with
    | none => ({ h with depth := h.depth + 1 }, [Out.dStart n], none)
    | some x =>
      ({ h with stored := some x, state := .EXCEPTION, depth := h.depth + 1 },
       [Out.dStart n], none)
  | .EXCEPTION => ({ h with depth := h.depth + 1 }, [], none)
  | .STARTED => XMLStreamHandler.processHeader P h n a
  | s => (h, [], some (Err.protocolViolation s))

/-- Embeds `XMLStreamHandler.endElementNS`.  In `STREAM_HEADER_PROCESSED` the
depth is decremented first; with positive depth remaining the event is
delegated and a raised consumer exception is captured, reported at once when
the new depth is 1; at depth 0 the footer callback fires and the state
becomes `STREAM_FOOTER_PROCESSED`.  In `EXCEPTION` the depth is decremented
and the stored fault is reported when the new depth is 1. -/
def XMLStreamHandler.endElementNS (h : XMLStreamHandler) (n : QName) (fault : Option Nat) :
    StepResult :=
  match h.state with
  | .STREAM_HEADER_PROCESSED =>
    let h1 : XMLStreamHandler := { h with depth := h.depth - 1 }
    if 0 < h1.depth then
      match fault with
      | none => (h1, [Out.dEnd n], none)
      | some x =>
        let h2 : XMLStreamHandler := { h1 with stored := some x, state := .EXCEPTION }
        if h2.depth = 1 then
          let r := XMLStreamHandler.raiseException h2
          (r.1, Out.dEnd n :: r.2.1, r.2.2)
        else (h2, [Out.dEnd n], none)
    else
      let outs := if h1.hasOnStreamFooter then [Out.footer] else []
      ({ h1 with state := .STREAM_FOOTER_PROCESSED }, outs, none)
  | .EXCEPTION =>
    let h1 : XMLStreamHandler := { h with depth := h.depth - 1 }
    if h1.depth = 1 then XMLStreamHandler.raiseException h1
    else (h1, [], none)
  | s => (h, [], some (Err.protocolViolation s))

/-- Embeds `XMLStreamHandler.startDocument`. -/
def XMLStreamHandler.startDocument (h : XMLStreamHandler) : StepResult :=
  if h.state ≠ .CLEAN then (h, [], some (Err.protocolViolation h.state))
  else ({ h with state := .STARTED, depth := 0 }, [], none)

/-- Embeds `XMLStreamHandler.endDocument`. -/
def XMLStreamHandler.endDocument (h : XMLStreamHandler) : StepResult :=
  if h.state ≠ .STREAM_FOOTER_PROCESSED then (h, [], some (Err.protocolViolation h.state))
  else ({ h with state := .CLEAN }, [], none)

/-- Embeds `XMLStreamHandler.characters`: a no-op in `EXCEPTION`, an
invalid-state error outside `STREAM_HEADER_PROCESSED`, otherwise delegated to
the driver; a consumer exception raised there is not caught and propagates. -/
def XMLStreamHandler.characters (h : XMLStreamHandler) (s : String) (fault : Option Nat) :
    StepResult :=
  match h.state with
  | .EXCEPTION => (h, [], none)
  | .STREAM_HEADER_PROCESSED =>
    match fault with
    | none => (h, [Out.dChars s], none)
    | some x => (h, [Out.dChars s], some (Err.consumerError x))
  | s2 => (h, [], some (Err.protocolViolation s2))

/-- Embeds `XMLStreamHandler.processingInstruction`: always raises the
`RESTRICTED_XML` stream error, in every state. -/
def XMLStreamHandler.processingInstruction (h : XMLStreamHandler) : StepResult :=
  (h, [], some Err.restrictedXml)

/-- Embeds the `stanza_parser` property setter: rejected with the
invalid-state `RuntimeError` outside `CLEAN`; on success the new parser is
installed and the remembered remote language tag is pushed onto it at once. -/
def XMLStreamHandler.setStanzaParser (h : XMLStreamHandler) : XMLStreamHandler × Option Err :=
  if h.state ≠ .CLEAN then (h, some (Err.protocolViolation h.state))
  else ({ h with hasStanzaParser := true, stanzaLang := h.remote_lang }, none)

/-- One parse event dispatched to the corresponding handler method. -/
def step (P : Parsers) (h : XMLStreamHandler) (e : Ev) : StepResult :=
  match e with
  | .startDoc => h.startDocument
  | .endDoc => h.endDocument
  | .startEl n a f => h.startElementNS P n a f
  | .endEl n f => h.endElementNS n f
  | .chars s f => h.characters s f
  | .procInstr => h.processingInstruction

/-- Runs a list of events, threading the (possibly mutated) handler through
each step - as the Python object persists across a method raising - and
concatenating the outputs. -/
def run (P : Parsers) (h : XMLStreamHandler) : List Ev → XMLStreamHandler × List Out
| [] => (h, [])
| e :: es =>
  let r := step P h e
  let r2 := run P r.1 es
  (r2.1, r.2.1 ++ r2.2)

/-- Net effect of a single event on the depth counter: an element open counts
+1, an element close -1, everything else 0. -/
def delta1 : Ev → Int
| Ev.startDoc => 0
| Ev.endDoc => 0
| Ev.startEl _ _ _ => 1
| Ev.endEl _ _ => -1
| Ev.chars _ _ => 0
| Ev.procInstr => 0

/-- Net effect of an event list on the depth counter. -/
def delta : List Ev → Int
| [] => 0
| e :: es => delta1 e + delta es

/-- State invariant of the handler, established below for every reachable
handler: in `STARTED` the depth is 0, in `STREAM_HEADER_PROCESSED` at least
1, and in `EXCEPTION` at least 2 with a stored exception present. -/
def Inv (h : XMLStreamHandler) : Prop :=
  (h.state = .STARTED → h.depth = 0) ∧
  (h.state = .STREAM_HEADER_PROCESSED → 1 ≤ h.depth) ∧
  (h.state = .EXCEPTION → 2 ≤ h.depth ∧ h.stored ≠ none)

/-- Handlers reachable from a freshly constructed instance by feeding parse
events and by replacing the stanza parser through the property setter. -/
inductive Reachable (P : Parsers) : XMLStreamHandler → Prop
| init (hh hf he : Bool) : Reachable P (XMLStreamHandler.init hh hf he)
| evStep (h : XMLStreamHandler) (e : Ev) : Reachable P h → Reachable P (step P h e).1
| setParser (h : XMLStreamHandler) : Reachable P h → Reachable P h.setStanzaParser.1

/-!
Outgoing side: `XMLStreamWriter`.  Only `__init__` and `start` are defined in
this repository; `start` is a straight-line sequence of calls on the
underlying low-level writer, which we embed as the list of calls made, in
order.
-/

/-- Calls `start` makes on the underlying low-level writer, in order:
`startDocument` (the document preamble), `startPrefixMapping` (here
`nsDecl`), `startElementNS` with an ordered attribute list, `endElementNS`
(only ever produced by the spec-modelled teardown below) and `flush`. -/
inductive WEv
| startDocument
| nsDecl (p : Option String) (uri : String)
| startElement (n : QName) (attrs : List ((Option String × String) × String))
| endElement (n : QName)
| flush
deriving DecidableEq

/-- Configuration of one `XMLStreamWriter`: the constructor arguments held by
the instance (`_id`, `_from`, `_to`, `_version`) together with the
namespace-prefix map the base class computed (`_nsmap_to_use`, in iteration
order) and the `sorted_attributes` flag (stored by the external base class;
`start` itself never reads it).  Addresses are kept as their string
rendering, since `start` only ever applies `str` to them. -/
structure XMLStreamWriterCfg where
  id : String
  from_ : String
  to_ : Option String
  version : List Nat
  nsmap : List (Option String × String)
  sorted_attributes : Bool
deriving DecidableEq

/-- Attribute list `start` builds for the root element, in insertion order:
`id`, `from`, `version`, then `to` only when a peer address is configured
(`if self._to:`; a `JID` instance is always truthy, so this is a presence
test). -/
def XMLStreamWriterCfg.rootAttrs (w : XMLStreamWriterCfg) :
    List ((Option String × String) × String) :=
  [((none, "id"), w.id), ((none, "from"), w.from_),
   ((none, "version"), String.intercalate "." (w.version.map toString))] ++
  (match w.to_ with | some t => [((none, "to"), t)] | none => [])

/-- Embeds `XMLStreamWriter.start`: document preamble, one prefix-mapping
declaration per configured namespace, the root element open with the
attribute list above, and a flush of the sink. -/
def XMLStreamWriterCfg.start (w : XMLStreamWriterCfg) : List WEv :=
  [WEv.startDocument] ++ w.nsmap.map (fun pu => WEv.nsDecl pu.1 pu.2) ++
  [WEv.startElement streamRootName w.rootAttrs, WEv.flush]

/-- Writer teardown states of the spec data model (`WriterState`). -/
inductive WriterState
| NotStarted
| Open
| Closed
| Aborted
deriving DecidableEq

/-- Modelled from the spec: the writer teardown state machine.  `close` and
`abort` are inherited from the external `aioxmpp.xml.XMLStreamWriter` base
class and are not part of this repository's sources; the spec defines them in
section 4.2.  `written` abstracts the bytes emitted to the sink as the list
of low-level writer calls made so far. -/
structure WriterFSM where
  st : WriterState
  written : List WEv
deriving DecidableEq

/-- Modelled from the spec: `close()` writes the stream-root closing tag and
moves to `Closed` when the writer is `Open`; in every other state it is a
no-op that emits nothing. -/
def WriterFSM.close (w : WriterFSM) : WriterFSM :=
  match w.st with
  | .Open => { st := .Closed, written := w.written ++ [WEv.endElement streamRootName] }
  | _ => w

/-- Modelled from the spec: `abort()` moves an `Open` writer directly to
`Aborted` without writing the closing tag; in every other state (already
`Aborted`, already `Closed`, not yet started) it is a no-op that emits
nothing. -/
def WriterFSM.abort (w : WriterFSM) : WriterFSM :=
  match w.st with
  | .Open => { w with st := .Aborted }
  | _ => w

/-!
Concrete fixtures used by the closed witness and counterexample theorems.
-/

/-- Tiny concrete integer parser: a realizable fragment of the behaviour of
the Python `int` constructor on the version components appearing in the
concrete traces below. -/
def smallInt : String → Option Int
| "0" => some 0
| "1" => some 1
| "2" => some 2
| "3" => some 3
| "9" => some 9
| _ => none

/-- Concrete parser bundle for closed evaluations: addresses parse to
themselves except the empty string (`JID.fromstr("")` raises), language tags
always parse, integers through `smallInt`. -/
def testParsers : Parsers :=
  { jid := fun s => if s = "" then none else some s
  , lang := fun s => some s
  , int := smallInt }

/-- Minimal valid stream-header attribute set: only a `to` address. -/
def headerAttrs : Attrs := ⟨none, some "example.test", none, none⟩

/-- Handler after `startDocument`: state `STARTED`, depth 0. -/
def hStarted : XMLStreamHandler :=
  (step testParsers (XMLStreamHandler.init true true true) Ev.startDoc).1

/-- Handler after `startDocument` and a valid stream header: state
`STREAM_HEADER_PROCESSED`, depth 1. -/
def hInStream : XMLStreamHandler :=
  (step testParsers hStarted (Ev.startEl streamRootName headerAttrs none)).1

/-- Handler after additionally opening a direct child whose consumer callback
raises exception value 7: state `EXCEPTION`, depth 2, stored fault 7. -/
def hFaulted : XMLStreamHandler :=
  (step testParsers hInStream (Ev.startEl (none, "x") Attrs.empty (some 7))).1

/-- Handler after a full document: header opened and root closed, state
`STREAM_FOOTER_PROCESSED` (the spec state Finished). -/
def hFinished : XMLStreamHandler :=
  (step testParsers hInStream (Ev.endEl streamRootName none)).1

/-!
Structural lemmas about the step function.
-/

/-- Shape of the header-processing branch: the stored exception is untouched,
and either the call failed (state and depth unchanged) or the header was
accepted (state `STREAM_HEADER_PROCESSED`, depth incremented). -/
lemma processHeader_shape (P : Parsers) (h : XMLStreamHandler) (n : QName) (a : Attrs) :
    (XMLStreamHandler.processHeader P h n a).1.stored = h.stored ∧
    (((XMLStreamHandler.processHeader P h n a).1.state = h.state ∧
      (XMLStreamHandler.processHeader P h n a).1.depth = h.depth) ∨
     ((XMLStreamHandler.processHeader P h n a).1.state = .STREAM_HEADER_PROCESSED ∧
      (XMLStreamHandler.processHeader P h n a).1.depth = h.depth + 1)) := by
  unfold XMLStreamHandler.processHeader XMLStreamHandler.processHeaderTo
    XMLStreamHandler.processHeaderVersion XMLStreamHandler.processHeaderLang
    XMLStreamHandler.processHeaderFinish
  repeat' split
  all_goals simp

/-- One step preserves the handler invariant. -/
lemma inv_step (P : Parsers) (h : XMLStreamHandler) (e : Ev) (hI : Inv h) :
    Inv (step P h e).1 := by
  obtain ⟨i1, i2, i3⟩ := hI
  cases e with
  | startDoc =>
    simp only [step, XMLStreamHandler.startDocument]
    split
    · exact ⟨i1, i2, i3⟩
    · simp [Inv]
  | endDoc =>
    simp only [step, XMLStreamHandler.endDocument]
    split
    · exact ⟨i1, i2, i3⟩
    · simp [Inv]
  | procInstr => exact ⟨i1, i2, i3⟩
  | chars s f =>
    rcases hs : h.state with _ | _ | _ | _ | _ <;>
      cases f <;> simp_all [step, XMLStreamHandler.characters, Inv]
  | startEl n a f =>
    rcases hs : h.state with _ | _ | _ | _ | _
    · simp_all [step, XMLStreamHandler.startElementNS, Inv]
    · obtain ⟨hstored, hshape⟩ := processHeader_shape P h n a
      have hd0 := i1 hs
      simp only [step, XMLStreamHandler.startElementNS, hs]
      rcases hshape with ⟨e1, e2⟩ | ⟨e1, e2⟩ <;>
        refine ⟨?_, ?_, ?_⟩ <;> intro hc <;> simp_all [Inv] <;> omega
    · have hd := i2 hs
      cases f <;> simp_all [step, XMLStreamHandler.startElementNS, Inv] <;> omega
    · simp_all [step, XMLStreamHandler.startElementNS, Inv]
    · obtain ⟨hd, hstne⟩ := i3 hs
      simp_all [step, XMLStreamHandler.startElementNS, Inv]
      omega
  | endEl n f =>
    rcases hs : h.state with _ | _ | _ | _ | _
    · simp_all [step, XMLStreamHandler.endElementNS, Inv]
    · simp_all [step, XMLStreamHandler.endElementNS, Inv]
    · have hd := i2 hs
      cases f with
      | none =>
        simp only [step, XMLStreamHandler.endElementNS, hs]
        split
        · simp_all [Inv]; omega
        · simp_all [Inv]
      | some x =>
        simp only [step, XMLStreamHandler.endElementNS, hs]
        split
        · split
          · simp only [XMLStreamHandler.raiseException]
            split <;> simp_all [Inv] <;> omega
          · simp_all [Inv]
            omega
        · simp_all [Inv]
    · simp_all [step, XMLStreamHandler.endElementNS, Inv]
    · obtain ⟨hd, hstne⟩ := i3 hs
      rcases hstv : h.stored with _ | x
      · exact absurd hstv hstne
      · simp only [step, XMLStreamHandler.endElementNS, hs]
        split
        · simp only [XMLStreamHandler.raiseException, hstv]
          split <;> simp_all [Inv] <;> omega
        · simp_all [Inv]
          omega

/-- Every reachable handler satisfies the invariant. -/
lemma reachable_inv (P : Parsers) (h : XMLStreamHandler) (hr : Reachable P h) : Inv h := by
  induction hr with
  | init hh hf he => simp [Inv, XMLStreamHandler.init]
  | evStep h e _ ih => exact inv_step P h e ih
  | setParser h _ ih =>
    obtain ⟨i1, i2, i3⟩ := ih
    unfold XMLStreamHandler.setStanzaParser
    split
    · exact ⟨i1, i2, i3⟩
    · exact ⟨i1, i2, i3⟩

/-- In the `EXCEPTION` state an element open only increments the depth. -/
lemma step_exc_startEl (P : Parsers) (h : XMLStreamHandler) (n : QName) (a : Attrs)
    (f : Option Nat) (hs : h.state = .EXCEPTION) :
    step P h (Ev.startEl n a f) = ({ h with depth := h.depth + 1 }, [], none) := by
  simp [step, XMLStreamHandler.startElementNS, hs]

/-- In the `EXCEPTION` state, away from depth 2, an element close only
decrements the depth. -/
lemma step_exc_endEl_deep (P : Parsers) (h : XMLStreamHandler) (n : QName) (f : Option Nat)
    (hs : h.state = .EXCEPTION) (hd : h.depth ≠ 2) :
    step P h (Ev.endEl n f) = ({ h with depth := h.depth - 1 }, [], none) := by
  simp only [step, XMLStreamHandler.endElementNS, hs]
  rw [if_neg (by first | omega | (simp; omega))]

/-- In the `EXCEPTION` state at depth 2, an element close reports the stored
fault through the registered `on_exception` callback and returns to
`STREAM_HEADER_PROCESSED` at depth 1. -/
lemma step_exc_endEl_report (P : Parsers) (h : XMLStreamHandler) (n : QName) (f : Option Nat)
    (x : Nat) (hs : h.state = .EXCEPTION) (hd : h.depth = 2) (hst : h.stored = some x)
    (hx : h.hasOnException = true) :
    step P h (Ev.endEl n f) =
      ({ h with state := .STREAM_HEADER_PROCESSED, stored := none, depth := h.depth - 1 },
       [Out.exc x], none) := by
  simp only [step, XMLStreamHandler.endElementNS, hs]
  rw [if_pos (by first | omega | (simp; omega))]
  simp [XMLStreamHandler.raiseException, hst, hx]

/-- In the `EXCEPTION` state every event other than an element open or close
leaves the handler unchanged and emits nothing (it is either swallowed or
raises an error to the caller without mutating the handler). -/
lemma step_exc_noop (P : Parsers) (h : XMLStreamHandler) (e : Ev) (hs : h.state = .EXCEPTION)
    (he1 : ∀ n a f, e ≠ Ev.startEl n a f) (he2 : ∀ n f, e ≠ Ev.endEl n f) :
    (step P h e).1 = h ∧ (step P h e).2.1 = [] := by
  cases e with
  | startDoc => simp [step, XMLStreamHandler.startDocument, hs]
  | endDoc => simp [step, XMLStreamHandler.endDocument, hs]
  | startEl n a f => exact absurd rfl (he1 n a f)
  | endEl n f => exact absurd rfl (he2 n f)
  | chars s f => simp [step, XMLStreamHandler.characters, hs]
  | procInstr => simp [step, XMLStreamHandler.processingInstruction]

/-- Unfolding of `run` on a cons cell. -/
lemma run_cons (P : Parsers) (h : XMLStreamHandler) (e : Ev) (es : List Ev) :
    run P h (e :: es) =
      ((run P (step P h e).1 es).1, (step P h e).2.1 ++ (run P (step P h e).1 es).2) := rfl

/-- Unfolding of `run` on the empty list. -/
lemma run_nil (P : Parsers) (h : XMLStreamHandler) : run P h [] = (h, []) := rfl

/-- Core lemma for the fault-reporting claims: from a faulted handler whose
stored exception is `x` and whose `on_exception` callback is registered, any
event sequence that keeps the depth at 2 or more until its last event and
whose net effect brings the depth to 1 produces exactly one output, the
delivery of `x` to `on_exception`, and it produces no output at all along any
proper prefix; the handler ends back in `STREAM_HEADER_PROCESSED` at depth 1
with the stored fault cleared. -/
lemma pendingFault (P : Parsers) (x : Nat) :
    ∀ (evs : List Ev) (h : XMLStreamHandler),
      h.state = .EXCEPTION → h.stored = some x → h.hasOnException = true →
      2 ≤ h.depth →
      (∀ i, i < evs.length → 2 ≤ h.depth + delta (evs.take i)) →
      h.depth + delta evs = 1 →
      (run P h evs).2 = [Out.exc x] ∧
      (∀ i, i < evs.length → (run P h (evs.take i)).2 = []) ∧
      (run P h evs).1.state = .STREAM_HEADER_PROCESSED ∧
      (run P h evs).1.depth = 1 ∧
      (run P h evs).1.stored = none := by
  intro evs
  induction evs with
  | nil =>
    intro h hs hst hx hd hpre hfin
    exfalso
    simp [delta] at hfin
    omega
  | cons e es ih =>
    intro h hs hst hx hd hpre hfin
    by_cases hrep : (∃ n f, e = Ev.endEl n f) ∧ h.depth = 2
    · obtain ⟨⟨n, f, rfl⟩, hd2⟩ := hrep
      have hes : es = [] := by
        rcases es with _ | ⟨e2, es2⟩
        · rfl
        · exfalso
          have h1 := hpre 1 (by simp)
          rw [List.take_succ_cons, List.take_zero] at h1
          simp [delta, delta1] at h1
          omega
      subst hes
      have hstep := step_exc_endEl_report P h n f x hs hd2 hst hx
      refine ⟨?_, ?_, ?_, ?_, ?_⟩
      · rw [run_cons, hstep]; simp [run_nil]
      · intro i hi
        have hi0 : i = 0 := by simp at hi; omega
        subst hi0
        simp [run_nil]
      · rw [run_cons, hstep]; simp [run_nil]
      · rw [run_cons, hstep]; simp [run_nil]; omega
      · rw [run_cons, hstep]; simp [run_nil]
    · have hes : es ≠ [] := by
        intro h0
        subst h0
        rcases e with _ | _ | ⟨n, a, f⟩ | ⟨n, f⟩ | ⟨s, f⟩ | _
        · simp [delta, delta1] at hfin; omega
        · simp [delta, delta1] at hfin; omega
        · simp [delta, delta1] at hfin; omega
        · simp [delta, delta1] at hfin
          exact hrep ⟨⟨n, f, rfl⟩, by omega⟩
        · simp [delta, delta1] at hfin; omega
        · simp [delta, delta1] at hfin; omega
      have hlen : 0 < es.length := List.length_pos.mpr hes
      have hstep : (step P h e).1.state = .EXCEPTION ∧ (step P h e).1.stored = some x ∧
          (step P h e).1.hasOnException = true ∧ (step P h e).2.1 = [] ∧
          (step P h e).1.depth = h.depth + delta1 e := by
        rcases e with _ | _ | ⟨n, a, f⟩ | ⟨n, f⟩ | ⟨s, f⟩ | _
        · obtain ⟨h1, h2⟩ := step_exc_noop P h Ev.startDoc hs
            (by intro _ _ _ hc; cases hc) (by intro _ _ hc; cases hc)
          simp [h1, h2, delta1, hs, hst, hx]
        · obtain ⟨h1, h2⟩ := step_exc_noop P h Ev.endDoc hs
            (by intro _ _ _ hc; cases hc) (by intro _ _ hc; cases hc)
          simp [h1, h2, delta1, hs, hst, hx]
        · rw [step_exc_startEl P h n a f hs]
          simp [delta1, hst, hx, hs]
        · have hd2 : h.depth ≠ 2 := fun hc => hrep ⟨⟨n, f, rfl⟩, hc⟩
          rw [step_exc_endEl_deep P h n f hs hd2]
          simp [delta1, hst, hx, hs]
          omega
        · obtain ⟨h1, h2⟩ := step_exc_noop P h (Ev.chars s f) hs
            (by intro _ _ _ hc; cases hc) (by intro _ _ hc; cases hc)
          simp [h1, h2, delta1, hs, hst, hx]
        · obtain ⟨h1, h2⟩ := step_exc_noop P h Ev.procInstr hs
            (by intro _ _ _ hc; cases hc) (by intro _ _ hc; cases hc)
          simp [h1, h2, delta1, hs, hst, hx]
      obtain ⟨hs1, hst1, hx1, hout1, hdep1⟩ := hstep
      have hd1 : 2 ≤ (step P h e).1.depth := by
        have h1 := hpre 1 (by simp; omega)
        rw [List.take_succ_cons, List.take_zero] at h1
        simp [delta] at h1
        rw [hdep1]
        omega
      have hpre1 : ∀ i, i < es.length → 2 ≤ (step P h e).1.depth + delta (es.take i) := by
        intro i hi
        have h2 := hpre (i + 1) (by simp; omega)
        rw [List.take_succ_cons] at h2
        simp [delta] at h2
        rw [hdep1]
        omega
      have hfin1 : (step P h e).1.depth + delta es = 1 := by
        rw [hdep1]
        simp [delta] at hfin
        omega
      obtain ⟨c1, c2, c3, c4, c5⟩ := ih (step P h e).1 hs1 hst1 hx1 hd1 hpre1 hfin1
      refine ⟨?_, ?_, ?_, ?_, ?_⟩
      · rw [run_cons]; simp [hout1, c1]
      · intro i hi
        rcases i with _ | i2
        · simp [run_nil]
        · rw [List.take_succ_cons, run_cons]
          simp [hout1, c2 i2 (by simp at hi; omega)]
      · rw [run_cons]; simpa using c3
      · rw [run_cons]; simpa using c4
      · rw [run_cons]; simpa using c5


/-- In `STREAM_HEADER_PROCESSED` a well-behaved element open is delegated to
the consumer and increments the depth. -/
lemma step_shp_startEl_ok (P : Parsers) (h : XMLStreamHandler) (n : QName) (a : Attrs)
    (hs : h.state = .STREAM_HEADER_PROCESSED) :
    step P h (Ev.startEl n a none) =
      ({ h with depth := h.depth + 1 }, [Out.dStart n], none) := by
  simp [step, XMLStreamHandler.startElementNS, hs]

/-- In `STREAM_HEADER_PROCESSED` above depth 1 a well-behaved element close is
delegated to the consumer and decrements the depth. -/
lemma step_shp_endEl_ok (P : Parsers) (h : XMLStreamHandler) (n : QName)
    (hs : h.state = .STREAM_HEADER_PROCESSED) (hd : 2 ≤ h.depth) :
    step P h (Ev.endEl n none) =
      ({ h with depth := h.depth - 1 }, [Out.dEnd n], none) := by
  simp only [step, XMLStreamHandler.endElementNS, hs]
  rw [if_pos (by first | omega | (simp; omega))]


/-- Fields established by the final header step: it never fails, moves to
`STREAM_HEADER_PROCESSED` and does not touch the metadata fields. -/
lemma processHeaderFinish_fields (h : XMLStreamHandler) :
    (h.processHeaderFinish).2.2 = none ∧
    (h.processHeaderFinish).1.state = .STREAM_HEADER_PROCESSED ∧
    (h.processHeaderFinish).1.remote_version = h.remote_version ∧
    (h.processHeaderFinish).1.remote_from = h.remote_from ∧
    (h.processHeaderFinish).1.remote_lang = h.remote_lang := by
  unfold XMLStreamHandler.processHeaderFinish
  repeat' split
  all_goals simp

/-- The `to`, `version` and `lang` header steps never modify `remote_from`. -/
lemma processHeaderTo_remote_from (P : Parsers) (h : XMLStreamHandler) (a : Attrs) :
    (XMLStreamHandler.processHeaderTo P h a).1.remote_from = h.remote_from := by
  unfold XMLStreamHandler.processHeaderTo XMLStreamHandler.processHeaderVersion
    XMLStreamHandler.processHeaderLang XMLStreamHandler.processHeaderFinish
  repeat' split
  all_goals simp

/-- Once the `to` attribute is parsed, the rest of the header processing can
no longer fail with an address parse error. -/
lemma processHeaderVersion_err_ne_jid (P : Parsers) (h : XMLStreamHandler) (a : Attrs) :
    (XMLStreamHandler.processHeaderVersion P h a).2.2 ≠ some Err.jidError := by
  unfold XMLStreamHandler.processHeaderVersion XMLStreamHandler.processHeaderLang
    XMLStreamHandler.processHeaderFinish
  repeat' split
  all_goals simp

/-- A `startDocument` call never raises `UNSUPPORTED_VERSION`. -/
lemma startDocument_no_unsupported (h : XMLStreamHandler) :
    h.startDocument.2.2 ≠ some Err.unsupportedVersion := by
  unfold XMLStreamHandler.startDocument
  split <;> simp

/-- An `endDocument` call never raises `UNSUPPORTED_VERSION`. -/
lemma endDocument_no_unsupported (h : XMLStreamHandler) :
    h.endDocument.2.2 ≠ some Err.unsupportedVersion := by
  unfold XMLStreamHandler.endDocument
  split <;> simp

/-- A `characters` call never raises `UNSUPPORTED_VERSION`. -/
lemma characters_no_unsupported (h : XMLStreamHandler) (s : String) (f : Option Nat) :
    (h.characters s f).2.2 ≠ some Err.unsupportedVersion := by
  unfold XMLStreamHandler.characters
  repeat' split
  all_goals simp

/-- An `endElementNS` call never raises `UNSUPPORTED_VERSION`. -/
lemma endElementNS_no_unsupported (h : XMLStreamHandler) (n : QName) (f : Option Nat) :
    (h.endElementNS n f).2.2 ≠ some Err.unsupportedVersion := by
  cases f <;> rcases hs : h.state with _ | _ | _ | _ | _ <;>
    rcases hst : h.stored with _ | x <;>
    simp only [XMLStreamHandler.endElementNS, XMLStreamHandler.raiseException, hs, hst] <;>
    (try split_ifs) <;> simp

/-- A `startElementNS` call outside state `STARTED` never raises
`UNSUPPORTED_VERSION`. -/
lemma startElementNS_no_unsupported_off (P : Parsers) (h : XMLStreamHandler) (n : QName)
    (a : Attrs) (f : Option Nat) (hst : h.state ≠ .STARTED) :
    (h.startElementNS P n a f).2.2 ≠ some Err.unsupportedVersion := by
  unfold XMLStreamHandler.startElementNS
  rcases hs : h.state with _ | _ | _ | _ | _
  · simp [hs]
  · exact absurd hs hst
  · cases f <;> simp [hs]
  · simp [hs]
  · simp [hs]

/-!
Claim theorems.
-/

/-- C1: for every event sequence in which a consumer callback raises while an
element is nested under the stream root (the capture step itself delivers
nothing to `on_exception`), the captured fault is delivered to the registered
`on_exception` callback exactly at the close event that brings the depth
counter back to 1 - the only output of the whole recovery trace is that one
delivery, and no proper prefix of the trace produces any output - no matter
how many descendant events occurred below the faulting element in the
meantime. -/
theorem c1_fault_reported_at_depth_one_close (P : Parsers) (h : XMLStreamHandler)
    (n : QName) (a : Attrs) (x : Nat) (evs : List Ev)
    (hs : h.state = .STREAM_HEADER_PROCESSED) (hd : 1 ≤ h.depth)
    (hx : h.hasOnException = true)
    (hpre : ∀ i, i < evs.length → 2 ≤ (h.depth + 1) + delta (evs.take i))
    (hfin : (h.depth + 1) + delta evs = 1) :
    (step P h (Ev.startEl n a (some x))).2.1 = [Out.dStart n] ∧
    (step P h (Ev.startEl n a (some x))).2.2 = none ∧
    (step P h (Ev.startEl n a (some x))).1.state = .EXCEPTION ∧
    (run P (step P h (Ev.startEl n a (some x))).1 evs).2 = [Out.exc x] ∧
    (∀ i, i < evs.length →
      (run P (step P h (Ev.startEl n a (some x))).1 (evs.take i)).2 = []) ∧
    (run P (step P h (Ev.startEl n a (some x))).1 evs).1.state =
      .STREAM_HEADER_PROCESSED ∧
    (run P (step P h (Ev.startEl n a (some x))).1 evs).1.depth = 1 := by
  have hcap : step P h (Ev.startEl n a (some x)) =
      ({ h with stored := some x, state := .EXCEPTION, depth := h.depth + 1 },
       [Out.dStart n], none) := by
    simp [step, XMLStreamHandler.startElementNS, hs]
  rw [hcap]
  obtain ⟨c1, c2, c3, c4, _⟩ := pendingFault P x evs
    { h with stored := some x, state := .EXCEPTION, depth := h.depth + 1 }
    rfl rfl hx (by first | omega | (simp; omega)) hpre hfin
  exact ⟨rfl, rfl, rfl, c1, c2, c3, c4⟩

/-- C1 witness: a consumer fault on a direct child of the root, followed by a
grandchild open, the grandchild close and the faulting child close; the fault
is delivered exactly at that last close. -/
theorem c1_witness :
    (run testParsers
        (step testParsers hInStream (Ev.startEl (none, "x") Attrs.empty (some 7))).1
        [Ev.startEl (none, "y") Attrs.empty none, Ev.endEl (none, "y") none,
         Ev.endEl (none, "x") none]).2 = [Out.exc 7] :=
  (c1_fault_reported_at_depth_one_close testParsers hInStream (none, "x") Attrs.empty 7
    [Ev.startEl (none, "y") Attrs.empty none, Ev.endEl (none, "y") none,
     Ev.endEl (none, "x") none]
    (by decide) (by decide) (by decide) (by decide) (by decide)).2.2.2.1

/-- C2 counterexample: the claim says a fault captured while the depth counter
equals `d` is reported at the step where the depth returns to `d - 1`.  Here
the fault is captured while the depth counter equals 1 (the handler is at
depth 1 when the faulting open arrives and `_stored_exception` is assigned
before the increment), yet the report is delivered at the step whose
resulting depth is 1, not 0 = `d - 1`. -/
theorem c2_counterexample :
    hInStream.depth = 1 ∧
    hFaulted = (step testParsers hInStream (Ev.startEl (none, "x") Attrs.empty (some 7))).1 ∧
    hFaulted.state = .EXCEPTION ∧ hFaulted.stored = some 7 ∧
    (step testParsers hFaulted (Ev.endEl (none, "x") none)).2.1 = [Out.exc 7] ∧
    (step testParsers hFaulted (Ev.endEl (none, "x") none)).1.depth = 1 ∧
    ¬((step testParsers hFaulted (Ev.endEl (none, "x") none)).1.depth =
        hInStream.depth - 1) := by decide

/-- C2 amended: a pending fault (state `EXCEPTION`, stored error `x`,
`on_exception` registered) is reported precisely at the step where the depth
counter returns to 1 - that is, exactly on a close event arriving at depth 2
- never at an earlier step and never at a later one, regardless of the depth
at which the fault was captured; the reporting step returns the handler to
`STREAM_HEADER_PROCESSED` at depth 1. -/
theorem c2_amended_report_iff_depth_returns_to_one (P : Parsers) (h : XMLStreamHandler)
    (x : Nat) (e : Ev)
    (hs : h.state = .EXCEPTION) (hst : h.stored = some x) (hx : h.hasOnException = true) :
    ((Out.exc x) ∈ (step P h e).2.1 ↔ (∃ n f, e = Ev.endEl n f) ∧ h.depth = 2) ∧
    (∀ n f, h.depth = 2 →
      (step P h (Ev.endEl n f)).2.1 = [Out.exc x] ∧
      (step P h (Ev.endEl n f)).1.state = .STREAM_HEADER_PROCESSED ∧
      (step P h (Ev.endEl n f)).1.depth = 1) := by
  constructor
  · constructor
    · intro hmem
      rcases e with _ | _ | ⟨n, a, f⟩ | ⟨n, f⟩ | ⟨s, f⟩ | _
      · obtain ⟨_, h2⟩ := step_exc_noop P h Ev.startDoc hs
          (by intro _ _ _ hc; cases hc) (by intro _ _ hc; cases hc)
        rw [h2] at hmem; simp at hmem
      · obtain ⟨_, h2⟩ := step_exc_noop P h Ev.endDoc hs
          (by intro _ _ _ hc; cases hc) (by intro _ _ hc; cases hc)
        rw [h2] at hmem; simp at hmem
      · rw [step_exc_startEl P h n a f hs] at hmem; simp at hmem
      · by_cases hd2 : h.depth = 2
        · exact ⟨⟨n, f, rfl⟩, hd2⟩
        · rw [step_exc_endEl_deep P h n f hs hd2] at hmem; simp at hmem
      · obtain ⟨_, h2⟩ := step_exc_noop P h (Ev.chars s f) hs
          (by intro _ _ _ hc; cases hc) (by intro _ _ hc; cases hc)
        rw [h2] at hmem; simp at hmem
      · obtain ⟨_, h2⟩ := step_exc_noop P h Ev.procInstr hs
          (by intro _ _ _ hc; cases hc) (by intro _ _ hc; cases hc)
        rw [h2] at hmem; simp at hmem
    · rintro ⟨⟨n, f, rfl⟩, hd2⟩
      rw [step_exc_endEl_report P h n f x hs hd2 hst hx]
      simp
  · intro n f hd2
    rw [step_exc_endEl_report P h n f x hs hd2 hst hx]
    refine ⟨rfl, rfl, by first | omega | (simp; omega)⟩

/-- C2 amended witness: the concrete faulted handler reports its stored fault
on the close event arriving at depth 2. -/
theorem c2_amended_witness :
    (step testParsers hFaulted (Ev.endEl (none, "x") none)).2.1 = [Out.exc 7] ∧
    (step testParsers hFaulted (Ev.endEl (none, "x") none)).1.state =
      .STREAM_HEADER_PROCESSED ∧
    (step testParsers hFaulted (Ev.endEl (none, "x") none)).1.depth = 1 :=
  (c2_amended_report_iff_depth_returns_to_one testParsers hFaulted 7
    (Ev.endEl (none, "x") none) (by decide) (by decide) (by decide)).2
    (none, "x") none (by decide)

/-- C3: after a fault is reported through the registered `on_exception`
callback (the close of the faulted child at depth 2), the handler is back in
`STREAM_HEADER_PROCESSED` at depth 1 with the stored fault cleared, and a
subsequently opened sibling element is delegated to the element consumer
normally: its begin and end events reach the consumer with no error and the
depth counts 1 to 2 to 1 as if no fault had occurred. -/
theorem c3_recovery_after_report (P : Parsers) (h : XMLStreamHandler) (x : Nat)
    (cn n2 : QName) (f : Option Nat) (a2 : Attrs)
    (hs : h.state = .EXCEPTION) (hst : h.stored = some x) (hx : h.hasOnException = true)
    (hd : h.depth = 2) :
    ∃ h1 h2 h3 : XMLStreamHandler,
      step P h (Ev.endEl cn f) = (h1, [Out.exc x], none) ∧
      h1.state = .STREAM_HEADER_PROCESSED ∧ h1.depth = 1 ∧ h1.stored = none ∧
      step P h1 (Ev.startEl n2 a2 none) = (h2, [Out.dStart n2], none) ∧
      h2.state = .STREAM_HEADER_PROCESSED ∧ h2.depth = 2 ∧
      step P h2 (Ev.endEl n2 none) = (h3, [Out.dEnd n2], none) ∧
      h3.state = .STREAM_HEADER_PROCESSED ∧ h3.depth = 1 := by
  refine ⟨{ h with state := .STREAM_HEADER_PROCESSED, stored := none, depth := h.depth - 1 },
          { h with state := .STREAM_HEADER_PROCESSED, stored := none,
                   depth := h.depth - 1 + 1 },
          { h with state := .STREAM_HEADER_PROCESSED, stored := none,
                   depth := h.depth - 1 + 1 - 1 },
          step_exc_endEl_report P h cn f x hs hd hst hx,
          rfl, by first | omega | (simp; omega), rfl,
          step_shp_startEl_ok P _ n2 a2 rfl,
          rfl, by first | omega | (simp; omega),
          step_shp_endEl_ok P _ n2 rfl (by first | omega | (simp; omega)),
          rfl, by first | omega | (simp; omega)⟩

/-- C3 witness: the concrete faulted handler recovers and routes a fresh
sibling element normally. -/
theorem c3_witness :
    ∃ h1 h2 h3 : XMLStreamHandler,
      step testParsers hFaulted (Ev.endEl (none, "x") none) = (h1, [Out.exc 7], none) ∧
      h1.state = .STREAM_HEADER_PROCESSED ∧ h1.depth = 1 ∧ h1.stored = none ∧
      step testParsers h1 (Ev.startEl (none, "y") Attrs.empty none) =
        (h2, [Out.dStart (none, "y")], none) ∧
      h2.state = .STREAM_HEADER_PROCESSED ∧ h2.depth = 2 ∧
      step testParsers h2 (Ev.endEl (none, "y") none) = (h3, [Out.dEnd (none, "y")], none) ∧
      h3.state = .STREAM_HEADER_PROCESSED ∧ h3.depth = 1 :=
  c3_recovery_after_report testParsers hFaulted 7 (none, "x") (none, "y") none Attrs.empty
    (by decide) (by decide) (by decide) (by decide)

/-- C4 counterexample: the claim says an accepted header sets
`remote_version` to the parsed pair `(major, minor)` whenever the version
attribute is present and parseable, and that an unparsable value fails with
`UnsupportedVersion`.  The value `"1.2.3"` is accepted (no error is raised)
and yields the triple `(1, 2, 3)`, which is not a pair. -/
theorem c4_counterexample :
    (step testParsers hStarted
        (Ev.startEl streamRootName ⟨none, some "t", some "1.2.3", none⟩ none)).2.2 = none ∧
    (step testParsers hStarted
        (Ev.startEl streamRootName ⟨none, some "t", some "1.2.3", none⟩ none)).1.remote_version =
      some [1, 2, 3] ∧
    ((step testParsers hStarted
        (Ev.startEl streamRootName
          ⟨none, some "t", some "1.2.3", none⟩ none)).1.remote_version.getD []).length ≠ 2 := by
  decide

/-- C4 amended: for a stream header in state `STARTED` whose `from`, `to` and
`lang` attributes are acceptable, `remote_version` is set to `(0, 9)` exactly
when the version attribute is absent, and to the tuple of the dot-separated
integer components when it is present and every component parses (a pair
exactly when the value contains exactly one dot); a version value with a
component that does not parse as an integer always makes the call fail with
`UnsupportedVersion` there and then, leaving the state `STARTED` and
`remote_version` untouched; and `UnsupportedVersion` can arise from no other
call than an element open processed in state `STARTED` - never later. -/
theorem c4_amended_version_tuple (P : Parsers) (h : XMLStreamHandler) (n : QName)
    (a : Attrs) (f : Option Nat)
    (hs : h.state = .STARTED) (hn : n = streamRootName)
    (hint09 : (pySplitDot "0.9").mapM P.int = some [0, 9])
    (hfrom : a.from_ = none ∨ ∃ s j, a.from_ = some s ∧ P.jid s = some j)
    (hto : ∃ s j, a.to_ = some s ∧ P.jid s = some j)
    (hlang : a.lang = none ∨ ∃ s l, a.lang = some s ∧ P.lang s = some l) :
    (a.version = none →
      (step P h (Ev.startEl n a f)).2.2 = none ∧
      (step P h (Ev.startEl n a f)).1.remote_version = some [0, 9]) ∧
    (∀ s vs, a.version = some s → (pySplitDot s).mapM P.int = some vs →
      (step P h (Ev.startEl n a f)).2.2 = none ∧
      (step P h (Ev.startEl n a f)).1.remote_version = some vs) ∧
    (∀ s, a.version = some s → (pySplitDot s).mapM P.int = none →
      (step P h (Ev.startEl n a f)).2.2 = some Err.unsupportedVersion ∧
      (step P h (Ev.startEl n a f)).1.state = .STARTED ∧
      (step P h (Ev.startEl n a f)).1.remote_version = h.remote_version) ∧
    (∀ (h2 : XMLStreamHandler) (e : Ev),
      (step P h2 e).2.2 = some Err.unsupportedVersion →
      h2.state = .STARTED ∧ ∃ n2 a2 f2, e = Ev.startEl n2 a2 f2) := by
  subst hn
  obtain ⟨ts, tj, hts, htj⟩ := hto
  refine ⟨?_, ?_, ?_, ?_⟩
  · intro hv
    rcases hfrom with hf | ⟨s, j, hf, hj⟩ <;> rcases hlang with hl | ⟨ls, ll, hl, hlp⟩ <;>
      simp_all [step, XMLStreamHandler.startElementNS, XMLStreamHandler.processHeader,
        XMLStreamHandler.processHeaderTo, XMLStreamHandler.processHeaderVersion,
        XMLStreamHandler.processHeaderLang, processHeaderFinish_fields]
  · intro s2 vs hv hparse
    rcases hfrom with hf | ⟨s, j, hf, hj⟩ <;> rcases hlang with hl | ⟨ls, ll, hl, hlp⟩ <;>
      simp_all [step, XMLStreamHandler.startElementNS, XMLStreamHandler.processHeader,
        XMLStreamHandler.processHeaderTo, XMLStreamHandler.processHeaderVersion,
        XMLStreamHandler.processHeaderLang, processHeaderFinish_fields]
  · intro s2 hv hparse
    rcases hfrom with hf | ⟨s, j, hf, hj⟩ <;>
      simp_all [step, XMLStreamHandler.startElementNS, XMLStreamHandler.processHeader,
        XMLStreamHandler.processHeaderTo, XMLStreamHandler.processHeaderVersion]
  · intro h2 e herr
    rcases e with _ | _ | ⟨n2, a2, f2⟩ | ⟨n2, f2⟩ | ⟨s2, f2⟩ | _
    · exact absurd herr (startDocument_no_unsupported h2)
    · exact absurd herr (endDocument_no_unsupported h2)
    · refine ⟨?_, n2, a2, f2, rfl⟩
      by_contra hne
      exact absurd herr (startElementNS_no_unsupported_off P h2 n2 a2 f2 hne)
    · exact absurd herr (endElementNS_no_unsupported h2 n2 f2)
    · exact absurd herr (characters_no_unsupported h2 s2 f2)
    · simp [step, XMLStreamHandler.processingInstruction] at herr

/-- C4 amended witness: a header carrying `version="1.0"` parses to the pair
`(1, 0)`, while the default case yields `(0, 9)`. -/
theorem c4_amended_witness :
    (step testParsers hStarted
        (Ev.startEl streamRootName ⟨none, some "t", some "1.0", none⟩ none)).2.2 = none ∧
    (step testParsers hStarted
        (Ev.startEl streamRootName ⟨none, some "t", some "1.0", none⟩ none)).1.remote_version =
      some [1, 0] :=
  (c4_amended_version_tuple testParsers hStarted streamRootName
      ⟨none, some "t", some "1.0", none⟩ none (by decide) rfl (by decide)
      (Or.inl (by decide)) ⟨"t", "t", by decide, by decide⟩ (Or.inl (by decide))).2.1
    "1.0" [1, 0] (by decide) (by decide)

/-- C5 counterexample: the claim says a header attribute set without a `to`
attribute always fails with `UndefinedCondition`; but a header whose `from`
attribute does not parse as an address (the empty string - `JID.fromstr("")`
raises) fails with the address parse error instead, because `from` is
processed before the `to` check. -/
theorem c5_counterexample :
    (step testParsers hStarted
        (Ev.startEl streamRootName ⟨some "", none, none, none⟩ none)).2.2 =
      some Err.jidError ∧
    (step testParsers hStarted
        (Ev.startEl streamRootName ⟨some "", none, none, none⟩ none)).2.2 ≠
      some Err.undefinedCondition := by decide

/-- C5 amended: for a stream header in state `STARTED` whose `from`
attribute, when present, parses as a valid address: a missing `to` attribute
always fails with `UndefinedCondition`; and a missing `from` attribute never
fails on that account - on success it leaves `remote_from` unset (`None`),
and any address parse error of such a call is attributable to the `to`
attribute. -/
theorem c5_amended_to_from_handling (P : Parsers) (h : XMLStreamHandler) (n : QName)
    (a : Attrs) (f : Option Nat)
    (hs : h.state = .STARTED) (hn : n = streamRootName)
    (hfrom : a.from_ = none ∨ ∃ s j, a.from_ = some s ∧ P.jid s = some j) :
    (a.to_ = none → (step P h (Ev.startEl n a f)).2.2 = some Err.undefinedCondition) ∧
    (a.from_ = none →
      ((step P h (Ev.startEl n a f)).2.2 = none →
        (step P h (Ev.startEl n a f)).1.remote_from = none) ∧
      ((step P h (Ev.startEl n a f)).2.2 = some Err.jidError →
        ∃ s, a.to_ = some s ∧ P.jid s = none)) := by
  subst hn
  constructor
  · intro hto
    rcases hfrom with hf | ⟨s, j, hf, hj⟩ <;>
      simp_all [step, XMLStreamHandler.startElementNS, XMLStreamHandler.processHeader,
        XMLStreamHandler.processHeaderTo]
  · intro hf
    have hred : step P h (Ev.startEl streamRootName a f) =
        XMLStreamHandler.processHeaderTo P { h with remote_from := none } a := by
      simp [step, XMLStreamHandler.startElementNS, XMLStreamHandler.processHeader, hs, hf]
    constructor
    · intro _
      rw [hred, processHeaderTo_remote_from]
    · intro herr
      rw [hred] at herr
      rcases hto2 : a.to_ with _ | s
      · rw [show XMLStreamHandler.processHeaderTo P { h with remote_from := none } a =
            ({ h with remote_from := none }, [], some Err.undefinedCondition) from by
            simp [XMLStreamHandler.processHeaderTo, hto2]] at herr
        simp at herr
      · rcases hjs : P.jid s with _ | j
        · exact ⟨s, rfl, hjs⟩
        · rw [show XMLStreamHandler.processHeaderTo P { h with remote_from := none } a =
              XMLStreamHandler.processHeaderVersion P
                { h with remote_from := none, remote_to := some j } a from by
              simp [XMLStreamHandler.processHeaderTo, hto2, hjs]] at herr
          exact absurd herr (processHeaderVersion_err_ne_jid P _ a)

/-- C5 amended witness: a header with no `from` and no `to` fails with
`UndefinedCondition`. -/
theorem c5_amended_witness :
    (step testParsers hStarted (Ev.startEl streamRootName Attrs.empty none)).2.2 =
      some Err.undefinedCondition :=
  (c5_amended_to_from_handling testParsers hStarted streamRootName Attrs.empty none
      (by decide) rfl (Or.inl (by decide))).1 (by decide)

/-- C10: in state `STARTED`, a header with a valid `from` attribute but no
`to` attribute fails with `UndefinedCondition`, yet `remote_from` has already
been overwritten with the parsed `from` address, while the state remains
`STARTED` and `remote_to`, `remote_version`, `remote_lang` and the depth are
unchanged; nothing is delivered to any callback. -/
theorem c10_header_failure_not_atomic (P : Parsers) (h : XMLStreamHandler) (n : QName)
    (a : Attrs) (f : Option Nat) (s j : String)
    (hs : h.state = .STARTED) (hn : n = streamRootName)
    (hf : a.from_ = some s) (hj : P.jid s = some j) (ht : a.to_ = none) :
    (step P h (Ev.startEl n a f)).2.2 = some Err.undefinedCondition ∧
    (step P h (Ev.startEl n a f)).1.remote_from = some j ∧
    (step P h (Ev.startEl n a f)).1.state = .STARTED ∧
    (step P h (Ev.startEl n a f)).1.remote_to = h.remote_to ∧
    (step P h (Ev.startEl n a f)).1.remote_version = h.remote_version ∧
    (step P h (Ev.startEl n a f)).1.remote_lang = h.remote_lang ∧
    (step P h (Ev.startEl n a f)).1.depth = h.depth ∧
    (step P h (Ev.startEl n a f)).2.1 = [] := by
  subst hn
  simp [step, XMLStreamHandler.startElementNS, XMLStreamHandler.processHeader,
    XMLStreamHandler.processHeaderTo, hs, hf, hj, ht]

/-- C10 witness: the concrete handler in state `STARTED` fed a header with
`from="alice"` and no `to`. -/
theorem c10_witness :
    (step testParsers hStarted
        (Ev.startEl streamRootName ⟨some "alice", none, none, none⟩ none)).2.2 =
      some Err.undefinedCondition ∧
    (step testParsers hStarted
        (Ev.startEl streamRootName ⟨some "alice", none, none, none⟩ none)).1.remote_from =
      some "alice" ∧
    (step testParsers hStarted
        (Ev.startEl streamRootName ⟨some "alice", none, none, none⟩ none)).1.state =
      .STARTED ∧
    (step testParsers hStarted
        (Ev.startEl streamRootName ⟨some "alice", none, none, none⟩ none)).1.remote_to =
      hStarted.remote_to ∧
    (step testParsers hStarted
        (Ev.startEl streamRootName ⟨some "alice", none, none, none⟩ none)).1.remote_version =
      hStarted.remote_version ∧
    (step testParsers hStarted
        (Ev.startEl streamRootName ⟨some "alice", none, none, none⟩ none)).1.remote_lang =
      hStarted.remote_lang ∧
    (step testParsers hStarted
        (Ev.startEl streamRootName ⟨some "alice", none, none, none⟩ none)).1.depth =
      hStarted.depth ∧
    (step testParsers hStarted
        (Ev.startEl streamRootName ⟨some "alice", none, none, none⟩ none)).2.1 = [] :=
  c10_header_failure_not_atomic testParsers hStarted streamRootName
    ⟨some "alice", none, none, none⟩ none "alice" "alice"
    (by decide) rfl (by decide) (by decide) (by decide)

/-- C6 counterexample: the claim says setting the element consumer succeeds
in state `Finished` (`STREAM_FOOTER_PROCESSED`); but on the handler that has
just consumed a complete document, so is in state `STREAM_FOOTER_PROCESSED`,
the setter raises the invalid-state error and changes nothing. -/
theorem c6_counterexample :
    hFinished.state = .STREAM_FOOTER_PROCESSED ∧
    (hFinished.setStanzaParser).2 =
      some (Err.protocolViolation .STREAM_FOOTER_PROCESSED) ∧
    (hFinished.setStanzaParser).1 = hFinished := by decide

/-- C6 amended: setting the element consumer succeeds exactly when the
handler state is `CLEAN` (Idle, which covers both before `startDocument` and
after `endDocument`), and fails with the invalid-state error in every other
state, including `STREAM_FOOTER_PROCESSED` (Finished); on success the
already-known remote language tag is immediately propagated to the new
consumer. -/
theorem c6_amended_setter_only_in_clean (h : XMLStreamHandler) :
    ((h.setStanzaParser).2 = none ↔ h.state = .CLEAN) ∧
    (h.state = .CLEAN →
      (h.setStanzaParser).2 = none ∧
      (h.setStanzaParser).1.stanzaLang = h.remote_lang ∧
      (h.setStanzaParser).1.hasStanzaParser = true) ∧
    (h.state ≠ .CLEAN → h.setStanzaParser = (h, some (Err.protocolViolation h.state))) := by
  unfold XMLStreamHandler.setStanzaParser
  split <;> simp_all

/-- C6 amended witness: on a fresh handler (state `CLEAN`) the setter
succeeds and pushes the (absent) remote language tag onto the new consumer. -/
theorem c6_amended_witness :
    ((XMLStreamHandler.init true true true).setStanzaParser).2 = none ∧
    ((XMLStreamHandler.init true true true).setStanzaParser).1.stanzaLang =
      (XMLStreamHandler.init true true true).remote_lang ∧
    ((XMLStreamHandler.init true true true).setStanzaParser).1.hasStanzaParser = true :=
  (c6_amended_setter_only_in_clean (XMLStreamHandler.init true true true)).2.1 (by decide)

/-- C7: for every writer configuration, `start` issues the document preamble
first, then one prefix declaration per configured namespace, then the
stream-root open whose attribute list is exactly `id`, `from`, `version`
followed by `to` only when a peer address is configured (every namespace
declaration precedes the root attributes), and finishes with a flush of the
sink. -/
theorem c7_start_layout (w : XMLStreamWriterCfg) :
    w.start.head? = some WEv.startDocument ∧
    w.start.getLast? = some WEv.flush ∧
    w.start = [WEv.startDocument] ++ w.nsmap.map (fun pu => WEv.nsDecl pu.1 pu.2) ++
      [WEv.startElement streamRootName w.rootAttrs, WEv.flush] ∧
    w.rootAttrs.map Prod.fst =
      [(none, "id"), (none, "from"), (none, "version")] ++
        (match w.to_ with | some _ => [(none, "to")] | none => []) := by
  refine ⟨rfl, ?_, rfl, ?_⟩
  · show (([WEv.startDocument] ++ w.nsmap.map (fun pu => WEv.nsDecl pu.1 pu.2)) ++
      [WEv.startElement streamRootName w.rootAttrs, WEv.flush]).getLast? = some WEv.flush
    rw [List.getLast?_append]
    rfl
  · unfold XMLStreamWriterCfg.rootAttrs
    rcases w.to_ <;> simp

/-- C8: writer teardown is idempotent - a second `close` after the first is a
no-op, `abort` after `close` emits nothing, repeated `abort` emits nothing
beyond the first, and once the writer is `Aborted` a later `close` never
writes the stream footer. -/
theorem c8_teardown_idempotent (w : WriterFSM) (l : List WEv) :
    w.close.close = w.close ∧
    w.close.abort.written = w.close.written ∧
    w.abort.abort = w.abort ∧
    (WriterFSM.mk WriterState.Aborted l).close = WriterFSM.mk WriterState.Aborted l ∧
    w.abort.close.written = w.abort.written := by
  rcases w with ⟨st, out⟩
  rcases st <;> simp [WriterFSM.close, WriterFSM.abort]

/-- C9: in every reachable handler, state `EXCEPTION` (Faulted) implies the
depth counter is at least 2; consequently a close event that takes the depth
from 1 to 0 can only be processed in state `STREAM_HEADER_PROCESSED`
(InStream), where it transitions to `STREAM_FOOTER_PROCESSED` - a captured
fault can never swallow the stream-footer close. -/
theorem c9_faulted_depth_at_least_two (P : Parsers) (h : XMLStreamHandler)
    (hr : Reachable P h) :
    (h.state = .EXCEPTION → 2 ≤ h.depth) ∧
    (∀ n f, h.depth = 1 → (step P h (Ev.endEl n f)).1.depth = 0 →
      h.state = .STREAM_HEADER_PROCESSED ∧
      (step P h (Ev.endEl n f)).1.state = .STREAM_FOOTER_PROCESSED) := by
  obtain ⟨i1, i2, i3⟩ := reachable_inv P h hr
  refine ⟨fun hc => (i3 hc).1, ?_⟩
  intro n f hd1 hd0
  rcases hs : h.state with _ | _ | _ | _ | _
  · exfalso
    simp [step, XMLStreamHandler.endElementNS, hs] at hd0
    omega
  · exfalso
    simp [step, XMLStreamHandler.endElementNS, hs] at hd0
    omega
  · refine ⟨rfl, ?_⟩
    simp only [step, XMLStreamHandler.endElementNS, hs]
    rw [if_neg (by first | omega | (simp; omega))]
  · exfalso
    simp [step, XMLStreamHandler.endElementNS, hs] at hd0
    omega
  · exfalso
    have := (i3 hs).1
    omega

/-- C9 witness: the concrete reachable faulted handler has depth at least
2. -/
theorem c9_witness : 2 ≤ hFaulted.depth :=
  (c9_faulted_depth_at_least_two testParsers hFaulted
    (Reachable.evStep hInStream (Ev.startEl (none, "x") Attrs.empty (some 7))
      (Reachable.evStep hStarted (Ev.startEl streamRootName headerAttrs none)
        (Reachable.evStep (XMLStreamHandler.init true true true) Ev.startDoc
          (Reachable.init true true true))))).1 (by decide)

end Aioxmppd
